import Mathlib

/-!
Shallow embedding of the streaming download engine and the content-description
service of `services/geminiService.ts` / `App.tsx` (zeekgeek/Youtube-AI-DL).

JavaScript numbers are modelled by `JsNum` (NaN, signed infinity, or an exact
rational); this keeps the behaviour of `(receivedLength / total) * 100` faithful
when `total` is `0` or `NaN`.  Byte chunks (`Uint8Array`) are lists of naturals;
the `Blob` built at the end is the concatenation (`List.flatten`) of the chunks.
-/

namespace YTDL

/-! ### JavaScript number model (the fragment the download code uses) -/

inductive JsNum where
  | nan : JsNum
  | inf : Bool → JsNum
  | fin : ℚ → JsNum
deriving DecidableEq

/-- JavaScript division on `JsNum` (`inf true` is `+Infinity`). -/
def jsDiv : JsNum → JsNum → JsNum
  | .nan, _ => .nan
  | _, .nan => .nan
  | .fin a, .fin b =>
      if b = 0 then (if a = 0 then .nan else if 0 < a then .inf true else .inf false)
      else .fin (a / b)
  | .inf s, .fin b => if b < 0 then .inf (!s) else .inf s
  | .fin _, .inf _ => .fin 0
  | .inf _, .inf _ => .nan

/-- JavaScript multiplication on `JsNum`. -/
def jsMul : JsNum → JsNum → JsNum
  | .nan, _ => .nan
  | _, .nan => .nan
  | .fin a, .fin b => .fin (a * b)
  | .inf s, .fin b => if b = 0 then .nan else if 0 < b then .inf s else .inf (!s)
  | .fin a, .inf s => if a = 0 then .nan else if 0 < a then .inf s else .inf (!s)
  | .inf s, .inf t => .inf (s == t)

/-- JavaScript strict equality `===` on numbers (`NaN === x` is always false). -/
def jsEqb : JsNum → JsNum → Bool
  | .nan, _ => false
  | _, .nan => false
  | .fin a, .fin b => a == b
  | .inf s, .inf t => s == t
  | _, _ => false

/-! ### JavaScript string helpers: `trim`, `parseInt`, the sanitising `replace` -/

/-- The characters `String.prototype.trim` removes. -/
def jsWhitespaceChars : List Char :=
  [' ', '\t', '\n', '\r', '\x0b', '\x0c', '\u00a0', '\u1680',
   '\u2000', '\u2001', '\u2002', '\u2003', '\u2004', '\u2005', '\u2006',
   '\u2007', '\u2008', '\u2009', '\u200a', '\u2028', '\u2029', '\u202f',
   '\u205f', '\u3000', '\ufeff']

def isJsWhitespace (c : Char) : Bool :=
  jsWhitespaceChars.contains c

/-- Drop trailing elements satisfying `p` (the right half of a trim). -/
def trimRight (p : α → Bool) (l : List α) : List α :=
  (l.reverse.dropWhile p).reverse

/-- `String.prototype.trim` on the character list of a string. -/
def jsTrim (cs : List Char) : List Char :=
  trimRight isJsWhitespace (cs.dropWhile isJsWhitespace)

def jsTrimStr (s : String) : String :=
  String.mk (jsTrim s.data)

/-- The character class kept by `filename.replace(/[^a-z0-9_ -]/ig, '')`:
ASCII letters (both cases via the `i` flag), digits, underscore, space, hyphen. -/
def isAllowedChar (c : Char) : Bool :=
  (decide ('a' ≤ c) && decide (c ≤ 'z')) ||
  (decide ('A' ≤ c) && decide (c ≤ 'Z')) ||
  (decide ('0' ≤ c) && decide (c ≤ '9')) ||
  c == '_' || c == ' ' || c == '-'

/-- `filename.replace(/[^a-z0-9_ -]/ig, '').trim() || 'video'` (line 170). -/
def safeFilename (filename : String) : String :=
  let replaced := String.mk (filename.data.filter isAllowedChar)
  let trimmed := jsTrimStr replaced
  if trimmed = "" then "video" else trimmed

def isDecDigit (c : Char) : Bool :=
  decide ('0' ≤ c) && decide (c ≤ '9')

def digitsVal (ds : List Char) : ℕ :=
  ds.foldl (fun a c => 10 * a + (c.toNat - '0'.toNat)) 0

/-- Parse a maximal run of leading decimal digits; `NaN` when there is none. -/
def parseIntDigits (l : List Char) : JsNum :=
  let ds := l.takeWhile isDecDigit
  if ds = [] then .nan else .fin (digitsVal ds)

/-- `parseInt(s, 10)`: skip leading whitespace, optional sign, leading digits. -/
def jsParseInt (s : String) : JsNum :=
  match s.data.dropWhile isJsWhitespace with
  | '-' :: rest =>
      (match parseIntDigits rest with
       | .fin q => .fin (-q)
       | x => x)
  | '+' :: rest => parseIntDigits rest
  | cs => parseIntDigits cs

/-! ### The streaming read loop (lines 145–158) -/

structure StreamState where
  chunks : List (List ℕ)
  receivedLength : ℕ
  progressEvents : List JsNum
deriving DecidableEq

/-- `(receivedLength / total) * 100` (lines 156–157). -/
def progressOf (receivedLength : ℕ) (total : JsNum) : JsNum :=
  jsMul (jsDiv (.fin (receivedLength : ℚ)) total) (.fin 100)

/-- One iteration of the `while (true)` loop for a chunk `value`:
`chunks.push(value); receivedLength += value.length; setDownloadProgress(...)`. -/
def streamStep (total : JsNum) (st : StreamState) (value : List ℕ) : StreamState :=
  { chunks := st.chunks ++ [value]
    receivedLength := st.receivedLength + value.length
    progressEvents :=
      st.progressEvents ++ [progressOf (st.receivedLength + value.length) total] }

/-- The whole read loop over the chunks the source delivers before `done`. -/
def streamLoop (total : JsNum) (chunks : List (List ℕ)) : StreamState :=
  chunks.foldl (streamStep total) ⟨[], 0, []⟩

/-! ### The download session `downloadFileWithProgress` (lines 118–186) -/

structure Response where
  status : ℕ
  hasBody : Bool
  contentLength : Option String
  chunks : List (List ℕ)

/-- `response.ok` of the Fetch API: status in the range 200–299. -/
def Response.ok (r : Response) : Bool :=
  decide (200 ≤ r.status) && decide (r.status < 300)

inductive DownloadError where
  | httpError (status : ℕ) : DownloadError
  | nullBody : DownloadError
  | missingContentLength : DownloadError
deriving DecidableEq

structure DownloadSuccess where
  blob : List ℕ
  fileName : String
  progressEvents : List JsNum
  chunkReads : ℕ
  lengthMismatchWarning : Bool
deriving DecidableEq

inductive DownloadOutcome where
  | failure (err : DownloadError) (chunkReads : ℕ) : DownloadOutcome
  | success (s : DownloadSuccess) : DownloadOutcome
deriving DecidableEq

def DownloadOutcome.eventsOf : DownloadOutcome → List JsNum
  | .failure _ _ => []
  | .success s => s.progressEvents

def DownloadOutcome.warningOf : DownloadOutcome → Bool
  | .failure _ _ => false
  | .success s => s.lengthMismatchWarning

def DownloadOutcome.isSuccess : DownloadOutcome → Bool
  | .failure _ _ => false
  | .success _ => true

def DownloadOutcome.readsOf : DownloadOutcome → ℕ
  | .failure _ reads => reads
  | .success s => s.chunkReads

/-- `downloadFileWithProgress` (lines 118–186).  The header check is
`if (!contentLength) throw ...`: in JavaScript both a missing header (`null`)
and the empty string are falsy, while any non-empty string — `"0"` included —
passes.  `total = parseInt(contentLength, 10)`; the loop accumulates chunks and
emits `(receivedLength / total) * 100`; `receivedLength !== total` only logs a
warning; the blob is the concatenation of the chunks and the file name is
`safeFilename + ".mp4"`. -/
def downloadFileWithProgress (resp : Response) (filename : String) : DownloadOutcome :=
  if !resp.ok then .failure (.httpError resp.status) 0
  else if !resp.hasBody then .failure .nullBody 0
  else
    match resp.contentLength with
    | none => .failure .missingContentLength 0
    | some s =>
      if s = "" then .failure .missingContentLength 0
      else
        let total := jsParseInt s
        let st := streamLoop total resp.chunks
        let warning := !(jsEqb (.fin (st.receivedLength : ℚ)) total)
        let blob := st.chunks.flatten
        .success
          { blob := blob
            fileName := safeFilename filename ++ ".mp4"
            progressEvents := st.progressEvents
            chunkReads := resp.chunks.length
            lengthMismatchWarning := warning }

/-! ### The content-description service `fetchVideoInfo` (lines 33–67) -/

inductive Json where
  | null : Json
  | bool (b : Bool) : Json
  | num (q : ℚ) : Json
  | str (s : String) : Json
  | arr (elements : List Json) : Json
  | obj (fields : List (String × Json)) : Json

/-- JavaScript property access `j.k`: `undefined` (`none`) except on objects. -/
def Json.getProp : Json → String → Option Json
  | .obj fields, k => fields.lookup k
  | _, _ => none

/-- JavaScript truthiness of a parsed JSON value. -/
def Json.truthy : Json → Bool
  | .null => false
  | .bool b => b
  | .num q => !(q == 0)
  | .str s => !(s == "")
  | .arr _ => true
  | .obj _ => true

/-- Truthiness of a possibly-`undefined` property. -/
def jsTruthyOpt : Option Json → Bool
  | none => false
  | some j => j.truthy

structure ApiResponse where
  text : String

/-- Behaviour of the underlying `ai.models.generateContent` call:
either it throws, or it returns a response with a text. -/
inductive ApiOutcome where
  | failure : ApiOutcome
  | ok (resp : ApiResponse) : ApiOutcome

/-- The prompt built from the locator (line 35). -/
def videoPrompt (url : String) : String :=
  "Based on this YouTube URL, what could the video plausibly be about? Generate a creative title and a short, engaging summary for it. URL: " ++ url

/-- The fixed fallback record returned from the `catch` block (lines 62–65). -/
def fallbackVideoInfo : Json :=
  .obj [("title", .str "AI Could Not Determine Title"),
        ("summary", .str "There was an issue generating the video summary. Please check the URL or try again later.")]

/-- `fetchVideoInfo` (lines 33–67), parametrised by the behaviour of the API
call and of `JSON.parse` (`none` models a parse exception).  Every throwing
step lands in the `catch`, which returns `fallbackVideoInfo`. -/
def fetchVideoInfo (api : String → ApiOutcome) (jsonParse : String → Option Json)
    (url : String) : Json :=
  match api (videoPrompt url) with
  | .failure => fallbackVideoInfo
  | .ok response =>
    let jsonText := jsTrimStr response.text
    if jsonText = "" then fallbackVideoInfo
    else
      match jsonParse jsonText with
      | none => fallbackVideoInfo
      | some parsedResponse =>
        if parsedResponse.truthy && jsTruthyOpt (parsedResponse.getProp "title")
            && jsTruthyOpt (parsedResponse.getProp "summary")
        then parsedResponse
        else fallbackVideoInfo

/-! ### Helper: the running byte totals seen by the loop -/

/-- The value of `receivedLength` after each chunk, starting from `acc`. -/
def runningTotals (acc : ℕ) : List (List ℕ) → List ℕ
  | [] => []
  | c :: cs => (acc + c.length) :: runningTotals (acc + c.length) cs

theorem runningTotals_length (acc : ℕ) (cs : List (List ℕ)) :
    (runningTotals acc cs).length = cs.length := by
  induction cs generalizing acc with
  | nil => rfl
  | cons c cs ih => simp [runningTotals, ih]

theorem runningTotals_head_le (acc : ℕ) (cs : List (List ℕ)) :
    ∀ b ∈ (runningTotals acc cs).head?, acc ≤ b := by
  cases cs <;> simp [runningTotals]

theorem runningTotals_chain (acc : ℕ) (cs : List (List ℕ)) :
    List.Chain' (· ≤ ·) (runningTotals acc cs) := by
  induction cs generalizing acc with
  | nil => simp [runningTotals]
  | cons c cs ih =>
    rw [runningTotals, List.chain'_cons']
    exact ⟨runningTotals_head_le _ _, ih _⟩

theorem streamLoop_go (total : JsNum) (cs : List (List ℕ)) (st : StreamState) :
    List.foldl (streamStep total) st cs =
      ⟨st.chunks ++ cs,
       st.receivedLength + (cs.map List.length).sum,
       st.progressEvents ++
         (runningTotals st.receivedLength cs).map (fun r => progressOf r total)⟩ := by
  induction cs generalizing st with
  | nil => simp [runningTotals]
  | cons c cs ih =>
    rw [List.foldl_cons, ih]
    simp [streamStep, runningTotals, Nat.add_assoc]

theorem streamLoop_eq (total : JsNum) (cs : List (List ℕ)) :
    streamLoop total cs =
      ⟨cs, (cs.map List.length).sum,
       (runningTotals 0 cs).map (fun r => progressOf r total)⟩ := by
  simpa [streamLoop] using streamLoop_go total cs ⟨[], 0, []⟩

/-- With a positive declared total the computed progress is the exact rational
`(r / t) * 100`. -/
theorem progressOf_fin (r : ℕ) (t : ℚ) (ht : t ≠ 0) :
    progressOf r (.fin t) = .fin ((r : ℚ) / t * 100) := by
  simp [progressOf, jsDiv, jsMul, ht]

/-- Unfolding of a download that passes all the header checks. -/
theorem download_success_eq (resp : Response) (filename s : String)
    (hok : resp.ok = true) (hb : resp.hasBody = true)
    (hcl : resp.contentLength = some s) (hne : s ≠ "") :
    downloadFileWithProgress resp filename =
      .success
        { blob := resp.chunks.flatten
          fileName := safeFilename filename ++ ".mp4"
          progressEvents :=
            (runningTotals 0 resp.chunks).map (fun r => progressOf r (jsParseInt s))
          chunkReads := resp.chunks.length
          lengthMismatchWarning :=
            !(jsEqb (.fin (((resp.chunks.map List.length).sum : ℕ) : ℚ)) (jsParseInt s)) } := by
  rw [downloadFileWithProgress, hok, hb, hcl]
  simp only [Bool.not_true, Bool.false_eq_true, if_false, if_neg hne, streamLoop_eq]

/-! ### Helper lemmas about `dropWhile`, `trimRight` and `jsTrim` -/

theorem dropWhile_stable (p : α → Bool) (l : List α) :
    (l.dropWhile p).dropWhile p = l.dropWhile p := by
  induction l with
  | nil => rfl
  | cons a t ih =>
    by_cases h : p a <;> simp [List.dropWhile_cons, h, ih]

theorem trimRight_initial (p : α → Bool) (l : List α) :
    ∃ j, l = trimRight p l ++ j := by
  refine ⟨(l.reverse.takeWhile p).reverse, ?_⟩
  rw [trimRight, ← List.reverse_append, List.takeWhile_append_dropWhile,
    List.reverse_reverse]

theorem stable_trimRight (p : α → Bool) (l : List α) (hl : l.dropWhile p = l) :
    (trimRight p l).dropWhile p = trimRight p l := by
  obtain ⟨j, hj⟩ := trimRight_initial p l
  cases htr : trimRight p l with
  | nil => rfl
  | cons a t =>
    have hla : l = a :: (t ++ j) := by rw [hj, htr]; rfl
    have hpa : p a = false := by
      by_contra hp
      have hpa' : p a = true := by
        cases hpab : p a with
        | false => exact absurd hpab hp
        | true => rfl
      rw [hla, List.dropWhile_cons, if_pos hpa'] at hl
      have hle := (List.dropWhile_sublist (l := t ++ j) p).length_le
      rw [hl] at hle
      simp at hle
    simp [List.dropWhile_cons, hpa]

theorem trimRight_idem (p : α → Bool) (l : List α) :
    trimRight p (trimRight p l) = trimRight p l := by
  unfold trimRight
  rw [List.reverse_reverse, dropWhile_stable]

theorem jsTrim_idem (l : List Char) : jsTrim (jsTrim l) = jsTrim l := by
  unfold jsTrim
  rw [stable_trimRight _ _ (dropWhile_stable _ _), trimRight_idem]

theorem mem_of_mem_trimRight (p : α → Bool) {a : α} {l : List α}
    (h : a ∈ trimRight p l) : a ∈ l := by
  obtain ⟨j, hj⟩ := trimRight_initial p l
  rw [hj]
  exact List.mem_append_left _ h

theorem mem_of_mem_jsTrim {a : Char} {l : List Char} (h : a ∈ jsTrim l) : a ∈ l := by
  have h' := mem_of_mem_trimRight _ h
  have hsub : l.dropWhile isJsWhitespace ⊆ l := by
    intro x hx
    have := List.takeWhile_append_dropWhile (p := isJsWhitespace) (l := l)
    rw [← this]
    exact List.mem_append_right _ hx
  exact hsub h'

theorem filter_jsTrim_filter (A : Char → Bool) (l : List Char) :
    (jsTrim (l.filter A)).filter A = jsTrim (l.filter A) := by
  rw [List.filter_eq_self]
  intro a ha
  exact List.of_mem_filter (mem_of_mem_jsTrim ha)

theorem string_length_pos {s : String} (h : s ≠ "") : 0 < s.length := by
  cases s with
  | mk data =>
    cases data with
    | nil => exact absurd rfl h
    | cons a t => simp [String.length]

/-! ## Claim theorems -/

/-- Claim C1: for a transfer delivered as chunks of arbitrary sizes, the
artifact produced at finalization is the byte-for-byte concatenation of the
chunks in arrival order, and its length is the sum of the chunk sizes. -/
theorem download_round_trip (resp : Response) (filename s : String)
    (hok : resp.ok = true) (hb : resp.hasBody = true)
    (hcl : resp.contentLength = some s) (hne : s ≠ "") :
    ∃ suc : DownloadSuccess,
      downloadFileWithProgress resp filename = .success suc ∧
      suc.blob = resp.chunks.flatten ∧
      suc.blob.length = (resp.chunks.map List.length).sum := by
  rw [downloadFileWithProgress, hok, hb, hcl]
  simp only [Bool.not_true, Bool.false_eq_true, if_false, if_neg hne]
  refine ⟨_, rfl, ?_, ?_⟩
  · rw [streamLoop_eq]
  · rw [streamLoop_eq]
    simp

theorem download_round_trip_witness :
    ∃ suc : DownloadSuccess,
      downloadFileWithProgress ⟨200, true, some "4", [[1, 2], [3]]⟩ "a" = .success suc ∧
      suc.blob = ([[1, 2], [3]] : List (List ℕ)).flatten ∧
      suc.blob.length = (([[1, 2], [3]] : List (List ℕ)).map List.length).sum :=
  download_round_trip ⟨200, true, some "4", [[1, 2], [3]]⟩ "a" "4"
    (by decide) rfl rfl (by decide)

/-- Claim C2: after each chunk append (i.e. after consuming any initial
segment of the delivered chunks), the total length of the accumulated chunk
sequence equals the `receivedLength` counter. -/
theorem streaming_length_invariant (total : JsNum) (chunks : List (List ℕ)) (k : ℕ) :
    ((streamLoop total (chunks.take k)).chunks.flatten).length
      = (streamLoop total (chunks.take k)).receivedLength := by
  rw [streamLoop_eq]
  simp

/-- Claim C3: for any fixed positive declared total and any chunk sequence,
the percentages emitted by the read loop are monotonically non-decreasing. -/
theorem progress_monotone (t : ℚ) (ht : 0 < t) (chunks : List (List ℕ)) :
    List.Chain' (fun a b : JsNum => ∃ qa qb : ℚ, a = .fin qa ∧ b = .fin qb ∧ qa ≤ qb)
      ((streamLoop (.fin t) chunks).progressEvents) := by
  rw [streamLoop_eq]
  simp only [List.chain'_map]
  refine (runningTotals_chain 0 chunks).imp ?_
  intro a b hab
  refine ⟨(a : ℚ) / t * 100, (b : ℚ) / t * 100,
    progressOf_fin a t ht.ne', progressOf_fin b t ht.ne', ?_⟩
  have hdiv : (a : ℚ) / t ≤ (b : ℚ) / t :=
    (div_le_div_iff_of_pos_right ht).mpr (by exact_mod_cast hab)
  exact mul_le_mul_of_nonneg_right hdiv (by norm_num)

theorem progress_monotone_witness :
    (0 : ℚ) < 1000 ∧
    List.Chain' (fun a b : JsNum => ∃ qa qb : ℚ, a = .fin qa ∧ b = .fin qb ∧ qa ≤ qb)
      ((streamLoop (.fin 1000) [[1], [2, 3]]).progressEvents) :=
  ⟨by norm_num, progress_monotone 1000 (by norm_num) [[1], [2, 3]]⟩

/-- Claim C4: every emitted percentage is exactly `(received / total) * 100`
with no hard clamp (so `received > total` yields a value above 100), and for
declared total `1000` and chunk sizes `[250, 250, 500]` the emitted
percentages are exactly `25, 50, 100` with no mismatch warning. -/
theorem percentage_no_clamp :
    (∀ (total : JsNum) (chunks : List (List ℕ)),
      (streamLoop total chunks).progressEvents
        = (runningTotals 0 chunks).map (fun r => progressOf r total)) ∧
    (∀ r t : ℕ, 0 < t → progressOf r (.fin t) = .fin ((r : ℚ) / t * 100)) ∧
    (∀ r t : ℕ, 0 < t → t < r →
      ∃ q : ℚ, progressOf r (.fin t) = .fin q ∧ 100 < q) ∧
    ((downloadFileWithProgress
        ⟨200, true, some "1000",
         [List.replicate 250 1, List.replicate 250 2, List.replicate 500 3]⟩
        "BigBuckBunny").eventsOf = [.fin 25, .fin 50, .fin 100] ∧
     (downloadFileWithProgress
        ⟨200, true, some "1000",
         [List.replicate 250 1, List.replicate 250 2, List.replicate 500 3]⟩
        "BigBuckBunny").warningOf = false) := by
  refine ⟨?_, ?_, ?_, ?_, ?_⟩
  · intro total chunks
    rw [streamLoop_eq]
  · intro r t ht
    have : ((t : ℚ)) ≠ 0 := by exact_mod_cast ht.ne'
    exact progressOf_fin r t this
  · intro r t ht hrt
    have htQ : ((t : ℚ)) ≠ 0 := by exact_mod_cast ht.ne'
    refine ⟨(r : ℚ) / t * 100, progressOf_fin r t htQ, ?_⟩
    have h1 : (1 : ℚ) < (r : ℚ) / t := by
      rw [one_lt_div (by exact_mod_cast ht)]
      exact_mod_cast hrt
    nlinarith
  all_goals {
    rw [download_success_eq _ _ "1000" (by decide) rfl rfl (by decide)]
    have hp : jsParseInt "1000" = .fin ((1000 : ℕ) : ℚ) := rfl
    rw [hp]
    simp only [DownloadOutcome.eventsOf, DownloadOutcome.warningOf, runningTotals,
      List.length_replicate, List.map_cons, List.map_nil, List.sum_cons,
      List.sum_nil, jsEqb]
    norm_num [progressOf_fin]
  }

theorem percentage_no_clamp_witness :
    progressOf 3 (.fin 2) = .fin ((3 : ℚ) / 2 * 100) ∧
    (∃ q : ℚ, progressOf 3 (.fin 2) = .fin q ∧ 100 < q) :=
  ⟨percentage_no_clamp.2.1 3 2 (by decide),
   percentage_no_clamp.2.2.1 3 2 (by decide) (by decide)⟩

/-- Claim C5: a response that passes the transport checks but carries no
content-length header fails immediately with the missing-length error, with
zero chunk reads, no accumulated bytes and no artifact. -/
theorem missing_length_fails (resp : Response) (filename : String)
    (hok : resp.ok = true) (hb : resp.hasBody = true)
    (hcl : resp.contentLength = none) :
    downloadFileWithProgress resp filename = .failure .missingContentLength 0 := by
  simp [downloadFileWithProgress, hok, hb, hcl]

theorem missing_length_fails_witness :
    downloadFileWithProgress ⟨200, true, none, [[1], [2]]⟩ "x"
      = .failure .missingContentLength 0 :=
  missing_length_fails ⟨200, true, none, [[1], [2]]⟩ "x" (by decide) rfl rfl

theorem data_mk (l : List Char) : (String.mk l).data = l := rfl

theorem jsEqb_fin_ne {a b : ℚ} (h : a ≠ b) : jsEqb (.fin a) (.fin b) = false := by
  simp [jsEqb, h]

/-- Claim C6 counterexample: with `Content-Length: "0"` the session is *not*
rejected at start — it passes the header check (a non-empty string is truthy),
performs a chunk read and emits a percentage (`Infinity`, from dividing by the
zero total). -/
theorem zero_length_cex :
    (downloadFileWithProgress ⟨200, true, some "0", [[7]]⟩ "t").isSuccess = true ∧
    (downloadFileWithProgress ⟨200, true, some "0", [[7]]⟩ "t").readsOf = 1 ∧
    (downloadFileWithProgress ⟨200, true, some "0", [[7]]⟩ "t").eventsOf
      = [.inf true] := by
  rw [download_success_eq _ _ "0" (by decide) rfl rfl (by decide)]
  have hp : jsParseInt "0" = .fin ((0 : ℕ) : ℚ) := rfl
  rw [hp]
  refine ⟨rfl, rfl, ?_⟩
  simp only [DownloadOutcome.eventsOf, runningTotals, List.length_cons,
    List.length_nil, List.map_cons, List.map_nil]
  norm_num [progressOf, jsDiv, jsMul]

/-- Claim C6, amended: a declared total of zero is not a precondition failure.
The string `"0"` passes the falsy-header check, so the session enters streaming,
performs every chunk read, emits one percentage per chunk, and completes; the
percentage for any positive received count is computed with the zero divisor
and is `+Infinity`. -/
theorem zero_length_not_rejected (resp : Response) (filename : String)
    (hok : resp.ok = true) (hb : resp.hasBody = true)
    (hcl : resp.contentLength = some "0") :
    (∃ suc : DownloadSuccess,
        downloadFileWithProgress resp filename = .success suc ∧
        suc.chunkReads = resp.chunks.length ∧
        suc.progressEvents.length = resp.chunks.length) ∧
    (∀ r : ℕ, 0 < r → progressOf r (.fin ((0 : ℕ) : ℚ)) = .inf true) := by
  constructor
  · rw [download_success_eq resp filename "0" hok hb hcl (by decide)]
    refine ⟨_, rfl, rfl, ?_⟩
    simp [runningTotals_length]
  · intro r hr
    have h0 : ((r : ℚ)) ≠ 0 := by exact_mod_cast hr.ne'
    have hpos : (0 : ℚ) < (r : ℚ) := by exact_mod_cast hr
    simp [progressOf, jsDiv, jsMul, h0, hpos]

theorem zero_length_not_rejected_witness :
    (∃ suc : DownloadSuccess,
        downloadFileWithProgress ⟨200, true, some "0", [[5], [6]]⟩ "v" = .success suc ∧
        suc.chunkReads = ([[5], [6]] : List (List ℕ)).length ∧
        suc.progressEvents.length = ([[5], [6]] : List (List ℕ)).length) ∧
    (∀ r : ℕ, 0 < r → progressOf r (.fin ((0 : ℕ) : ℚ)) = .inf true) :=
  zero_length_not_rejected ⟨200, true, some "0", [[5], [6]]⟩ "v" (by decide) rfl rfl

/-- Claim C7: when end-of-data arrives with a received total different from
the declared total, the session still completes, the artifact is built from
the bytes actually received, and the mismatch is recorded as a non-fatal
warning. -/
theorem mismatch_still_completes (resp : Response) (filename s : String) (n : ℕ)
    (hok : resp.ok = true) (hb : resp.hasBody = true)
    (hcl : resp.contentLength = some s) (hne : s ≠ "")
    (hparse : jsParseInt s = .fin ((n : ℕ) : ℚ))
    (hmm : (resp.chunks.map List.length).sum ≠ n) :
    ∃ suc : DownloadSuccess,
      downloadFileWithProgress resp filename = .success suc ∧
      suc.lengthMismatchWarning = true ∧
      suc.blob = resp.chunks.flatten := by
  rw [download_success_eq resp filename s hok hb hcl hne, hparse]
  refine ⟨_, rfl, ?_, rfl⟩
  have hQ : (((resp.chunks.map List.length).sum : ℕ) : ℚ) ≠ ((n : ℕ) : ℚ) := by
    exact_mod_cast hmm
  rw [jsEqb_fin_ne hQ]
  rfl

set_option maxRecDepth 100000 in
theorem mismatch_still_completes_witness :
    ∃ suc : DownloadSuccess,
      downloadFileWithProgress
          ⟨200, true, some "500", [List.replicate 250 0, List.replicate 150 1]⟩ "v"
        = .success suc ∧
      suc.lengthMismatchWarning = true ∧
      suc.blob = ([List.replicate 250 0, List.replicate 150 1] : List (List ℕ)).flatten :=
  mismatch_still_completes
    ⟨200, true, some "500", [List.replicate 250 0, List.replicate 150 1]⟩ "v" "500" 500
    (by decide) rfl rfl (by decide) rfl (by decide)

set_option maxRecDepth 100000 in
/-- Claim C8: the sanitiser keeps only ASCII letters, digits, underscore,
space and hyphen, trims, and falls back to `"video"`; its output is never
empty and the reference example holds. -/
theorem sanitize_total_and_example :
    (∀ s : String, 0 < (safeFilename s).length) ∧
    safeFilename "My Video!! #1 <2024>" = "My Video 1 2024" := by
  constructor
  · intro s
    simp only [safeFilename]
    by_cases h : jsTrimStr (String.mk (s.data.filter isAllowedChar)) = ""
    · rw [if_pos h]; decide
    · rw [if_neg h]; exact string_length_pos h
  · decide

set_option maxRecDepth 100000 in
/-- Claim C9: the sanitiser is idempotent — applying it to its own output
returns that output unchanged. -/
theorem sanitize_idempotent (s : String) :
    safeFilename (safeFilename s) = safeFilename s := by
  by_cases h : jsTrimStr (String.mk (s.data.filter isAllowedChar)) = ""
  · have hs : safeFilename s = "video" := by
      simp only [safeFilename]
      rw [if_pos h]
    rw [hs]
    decide
  · have hs : safeFilename s = jsTrimStr (String.mk (s.data.filter isAllowedChar)) := by
      simp only [safeFilename]
      rw [if_neg h]
    rw [hs]
    have hu : jsTrimStr (String.mk (s.data.filter isAllowedChar))
        = String.mk (jsTrim (s.data.filter isAllowedChar)) := by
      simp only [jsTrimStr, data_mk]
    rw [hu] at h ⊢
    simp only [safeFilename, jsTrimStr, data_mk]
    rw [filter_jsTrim_filter, jsTrim_idem, if_neg h]

/-- Claim C10: for every locator and every behaviour of the underlying API
call and of `JSON.parse`, the description operation resolves: either the
parsed value passes all the truthiness checks and is returned, or the result
is exactly the fixed fallback record. -/
theorem describe_always_resolves (api : String → ApiOutcome)
    (jsonParse : String → Option Json) (url : String) :
    fetchVideoInfo api jsonParse url = fallbackVideoInfo ∨
    ∃ (resp : ApiResponse) (j : Json),
      api (videoPrompt url) = .ok resp ∧
      0 < (jsTrimStr resp.text).length ∧
      jsonParse (jsTrimStr resp.text) = some j ∧
      (j.truthy && jsTruthyOpt (j.getProp "title")
        && jsTruthyOpt (j.getProp "summary")) = true ∧
      fetchVideoInfo api jsonParse url = j := by
  cases hapi : api (videoPrompt url) with
  | failure =>
    left
    rw [fetchVideoInfo, hapi]
  | ok resp =>
    have hfv : fetchVideoInfo api jsonParse url =
        (if jsTrimStr resp.text = "" then fallbackVideoInfo
         else
           match jsonParse (jsTrimStr resp.text) with
           | none => fallbackVideoInfo
           | some parsedResponse =>
             if parsedResponse.truthy && jsTruthyOpt (parsedResponse.getProp "title")
                 && jsTruthyOpt (parsedResponse.getProp "summary")
             then parsedResponse
             else fallbackVideoInfo) := by
      rw [fetchVideoInfo, hapi]
    by_cases htext : jsTrimStr resp.text = ""
    · rw [if_pos htext] at hfv
      exact Or.inl hfv
    · rw [if_neg htext] at hfv
      cases hparse : jsonParse (jsTrimStr resp.text) with
      | none =>
        rw [hparse] at hfv
        exact Or.inl hfv
      | some j =>
        rw [hparse] at hfv
        have hfv2 : fetchVideoInfo api jsonParse url =
            (if j.truthy && jsTruthyOpt (j.getProp "title")
                && jsTruthyOpt (j.getProp "summary")
             then j
             else fallbackVideoInfo) := hfv
        by_cases hty : (j.truthy && jsTruthyOpt (j.getProp "title")
            && jsTruthyOpt (j.getProp "summary")) = true
        · rw [if_pos hty] at hfv2
          exact Or.inr ⟨resp, j, rfl, string_length_pos htext, hparse, hty, hfv2⟩
        · rw [if_neg hty] at hfv2
          exact Or.inl hfv2

end YTDL
